import Mathlib

/-!
A shallow embedding of `src/create-pull-request.py`, the single source file of
the repository.  Pure string manipulation is translated directly; every
interaction with the outside world (a git subprocess call or a GitHub API
call) is recorded as an `Effect` in an execution trace, and the data the
script learns from those external calls (remote refs, working-tree dirtiness,
API responses, the clock, the random generator) is supplied by a `World`
oracle.  The module-level script body (source lines 221-356) becomes the
function `run`; `process_event` (source lines 115-218) keeps its name.
-/

/-- Python `str.startswith`, over the character list of a string. -/
def strStartsWith (s p : String) : Bool := List.isPrefixOf p.data s.data

/-- Python slicing `s[n:]`, counted in characters. -/
def strDrop (s : String) (n : Nat) : String := String.mk (List.drop n s.data)

/-- Configuration read from environment variables (source lines 221-253 and
115-135).  `none` models an unset optional variable. -/
structure Config where
  github_token : String
  github_repository : String
  github_ref : String
  event_name : String
  github_actor : String
  github_head_ref : String
  commit_author_name : Option String
  commit_author_email : Option String
  committer_name : Option String
  committer_email : Option String
  pull_request_branch : Option String
  pull_request_base : Option String
  branch_suffix : Option String
  commit_message : Option String
  pull_request_title : Option String
  pull_request_body : Option String
  pull_request_labels : Option String
  pull_request_assignees : Option String
  pull_request_milestone : Option String
  pull_request_reviewers : Option String
  pull_request_team_reviewers : Option String
  project_name : Option String
  project_column_name : Option String
deriving DecidableEq

/-- The fields of the JSON trigger-event payload that the script reads
(source lines 39-40 and 262). -/
structure EventData where
  head_commit_author_email : String
  head_commit_author_name : String
  pr_head_repo_full_name : String
deriving DecidableEq

/-- Oracle for everything the script learns from the outside world:
`head_short_sha` is the answer of `git rev-parse --short HEAD` (line 23),
`timestamp` the answer of `int(time.time())` (line 301), `random_suffix` the
string produced by `get_random_suffix` (line 27), `remote_refs` the names of
`repo.remotes.origin.refs` (line 31), `is_dirty` / `untracked_files` the
answers of `repo.is_dirty()` / `len(repo.untracked_files)` (line 352),
`stash_pop_conflicts_base` / `stash_pop_conflicts_head` whether `git stash
pop` raises during the base-resolution checkout (lines 259/276) resp. the
head-branch checkout (line 338), `create_pull_status` the outcome of
`github_repo.create_pull` (line 147, `none` = success, `some s` = a
GithubException with status `s`), `created_pull_number` the number of a
successfully created pull request, and `existing_pulls` the numbers returned
by the `get_pulls` lookup (line 158). -/
structure World where
  head_short_sha : String
  timestamp : Nat
  random_suffix : String
  remote_refs : List String
  is_dirty : Bool
  untracked_files : Nat
  stash_pop_conflicts_base : Bool
  stash_pop_conflicts_head : Bool
  create_pull_status : Option Nat
  created_pull_number : Nat
  existing_pulls : List Nat
deriving DecidableEq

/-- One observable external action: a git subprocess call or a GitHub API
call.  Payloads record the arguments the claims talk about. -/
inductive Effect where
  | gitStash
  | gitCheckout (branch : String)
  | gitStashPop
  | gitCheckoutTheirs
  | gitReset
  | gitCheckoutNew (branch : String)
  | gitAdd
  | gitCommit (author_name author_email committer_name committer_email message : String)
  | gitPush (branch : String)
  | apiCreatePull (base head : String)
  | apiGetPulls (base head : String)
  | apiSetLabels (labels : List String)
  | apiSetAssignees (assignees : List String)
  | apiSetMilestone (milestone : String)
  | apiRequestReviewers (reviewers : List String)
  | apiRequestTeamReviewers (team_reviewers : List String)
  | apiProjectCard (project_name project_column_name : String)
deriving DecidableEq

/-- The author/committer identity, module-level variables in the source
(lines 230-236). -/
structure Identity where
  author_name : String
  author_email : String
  committer_name : String
  committer_email : String
deriving DecidableEq

/-- Result of a run: the process exit code (`sys.exit()` is 0, `sys.exit(1)`
is 1, an uncaught exception is 1, falling off the end is 0), the trace of
external effects in order, and the pull-request number announced through the
`set-output` line (source lines 170-171), if any. -/
structure RunResult where
  exitCode : Nat
  effects : List Effect
  pullNumber : Option Nat
deriving DecidableEq

/-- Source line 23: `git rev-parse --short HEAD`, answered by the oracle. -/
def get_head_short_sha1 (w : World) : String := w.head_short_sha

/-- Source lines 30-34: scan `repo.remotes.origin.refs` for `origin/branch`. -/
def remote_branch_exists (refs : List String) (branch : String) : Bool :=
  refs.any fun r => r = "origin/" ++ branch

/-- Source lines 37-44: default author identity, returned as
(email, name) in the order of the `return` statement. -/
def get_author_default (event_name github_actor : String) (ev : EventData) : String × String :=
  if event_name = "push" then
    (ev.head_commit_author_email, ev.head_commit_author_name)
  else
    (github_actor ++ "@users.noreply.github.com", github_actor)

/-- Source lines 230-236: derive the default author identity from the event,
apply the COMMIT_AUTHOR_NAME/EMAIL overrides, then default the committer
fields to the (already overridden) author fields. -/
def resolve_identity (cfg : Config) (ev : EventData) : Identity :=
  let p := get_author_default cfg.event_name cfg.github_actor ev
  let author_name := Option.getD cfg.commit_author_name p.2
  let author_email := Option.getD cfg.commit_author_email p.1
  let committer_name := Option.getD cfg.committer_name author_name
  let committer_email := Option.getD cfg.committer_email author_email
  ⟨author_name, author_email, committer_name, committer_email⟩

/-- Source lines 77-81: split a comma-separated string, strip each item,
drop empty items. -/
def cs_string_to_list (s : String) : List String :=
  ((s.splitOn ",").map String.trim).filter fun i => i != ""

/-- Source lines 51-63: the checkout procedure.  When the branch exists
remotely, stash (including untracked files), check the branch out, pop the
stash, and on a failing pop run `git checkout --theirs .` and `git reset`;
when it does not, create the branch from HEAD.  `stash_pop_fails` is the
oracle for whether `git.stash("pop")` raises. -/
def checkout_branch (remote_exists : Bool) (branch : String) (stash_pop_fails : Bool) : List Effect :=
  if remote_exists then
    [Effect.gitStash, Effect.gitCheckout branch, Effect.gitStashPop] ++
      (if stash_pop_fails then [Effect.gitCheckoutTheirs, Effect.gitReset] else [])
  else
    [Effect.gitCheckoutNew branch]

/-- Source lines 66-74: stage everything, commit with the resolved identity,
force-push `HEAD:refs/heads/branch` to the authenticated remote URL. -/
def push_changes (id : Identity) (branch msg : String) : List Effect :=
  [Effect.gitAdd,
   Effect.gitCommit id.author_name id.author_email id.committer_name id.committer_email msg,
   Effect.gitPush branch]

/-- One optional metadata action: emitted only when the variable is set. -/
def optEffect (o : Option String) (f : String → Effect) : List Effect :=
  match o with
  | some s => [f s]
  | none => []

/-- Source lines 173-218: the optional metadata calls of `process_event`, in
source order (labels, assignees, milestone, reviewers, team reviewers,
project card; the card needs both PROJECT_NAME and PROJECT_COLUMN_NAME). -/
def metadata_effects (cfg : Config) : List Effect :=
  optEffect cfg.pull_request_labels (fun s => Effect.apiSetLabels (cs_string_to_list s)) ++
  optEffect cfg.pull_request_assignees (fun s => Effect.apiSetAssignees (cs_string_to_list s)) ++
  optEffect cfg.pull_request_milestone (fun s => Effect.apiSetMilestone s) ++
  optEffect cfg.pull_request_reviewers (fun s => Effect.apiRequestReviewers (cs_string_to_list s)) ++
  optEffect cfg.pull_request_team_reviewers (fun s => Effect.apiRequestTeamReviewers (cs_string_to_list s)) ++
  (match cfg.project_name, cfg.project_column_name with
   | some pn, some cn => [Effect.apiProjectCard pn cn]
   | _, _ => [])

/-- Source line 156: the head spec `owner:branch` used for the lookup, where
`owner` is `github_repository.split("/")[0]`. -/
def headWithOwner (repoFullName branch : String) : String :=
  (List.headD (repoFullName.splitOn "/") "") ++ ":" ++ branch

/-- Source lines 115-218 (`process_event`): push the changes, try to create
the pull request, on a 422 GithubException look the existing open pull
request up (`get_pulls(...)[0]` raises when the answer is empty, which kills
the process with exit code 1 before any output line), on any other
GithubException exit 1, then announce the number and apply the optional
metadata. -/
def process_event (cfg : Config) (w : World) (id : Identity) (branch base : String) : RunResult :=
  let msg := Option.getD cfg.commit_message "Auto-committed changes by create-pull-request action"
  let pushEffs := push_changes id branch msg
  match w.create_pull_status with
  | none =>
      ⟨0, pushEffs ++ [Effect.apiCreatePull base branch] ++ metadata_effects cfg,
        some w.created_pull_number⟩
  | some s =>
      if s = 422 then
        let lookup := [Effect.apiGetPulls base (headWithOwner cfg.github_repository branch)]
        match w.existing_pulls with
        | [] => ⟨1, pushEffs ++ [Effect.apiCreatePull base branch] ++ lookup, none⟩
        | n :: _ =>
            ⟨0, pushEffs ++ [Effect.apiCreatePull base branch] ++ lookup ++ metadata_effects cfg,
              some n⟩
      else
        ⟨1, pushEffs ++ [Effect.apiCreatePull base branch], none⟩

/-- Source line 251: the branch-name base, default `create-pull-request/patch`. -/
def branchPref (cfg : Config) : String :=
  Option.getD cfg.pull_request_branch "create-pull-request/patch"

/-- Source line 295: the suffix strategy, default `short-commit-hash`. -/
def branchSfx (cfg : Config) : String :=
  Option.getD cfg.branch_suffix "short-commit-hash"

/-- Source lines 256-285: resolve the base branch.  `Sum.inl (code, effects)`
models an early `sys.exit` during base resolution (cross-fork pull request,
or an unsupported ref shape); `Sum.inr (base, effects)` carries the resolved
base and the effects of the checkout performed while resolving it. -/
def resolve_base (cfg : Config) (ev : EventData) (w : World) :
    (Nat × List Effect) ⊕ (String × List Effect) :=
  match cfg.pull_request_base with
  | some b => Sum.inr ⟨b, checkout_branch true b w.stash_pop_conflicts_base⟩
  | none =>
    if strStartsWith cfg.github_ref "refs/pull/" then
      if ev.pr_head_repo_full_name ≠ cfg.github_repository then
        Sum.inl ⟨0, []⟩
      else
        Sum.inr ⟨cfg.github_head_ref,
          checkout_branch true cfg.github_head_ref w.stash_pop_conflicts_base⟩
    else if strStartsWith cfg.github_ref "refs/heads/" then
      Sum.inr ⟨strDrop cfg.github_ref 11, []⟩
    else
      Sum.inl ⟨0, []⟩

/-- Source lines 295-310: compute the head-branch name from the strategy;
`none` models the `sys.exit(1)` on an unrecognized strategy value. -/
def resolve_branch (pref sfx : String) (w : World) : Option String :=
  if sfx = "short-commit-hash" then some (pref ++ "-" ++ get_head_short_sha1 w)
  else if sfx = "timestamp" then some (pref ++ "-" ++ toString w.timestamp)
  else if sfx = "random" then some (pref ++ "-" ++ w.random_suffix)
  else if sfx = "none" then some pref
  else none

/-- Source lines 316-356: existence check and collision policy, checkout of
the head branch, change detection, and the conditional publish step. -/
def runFromBranch (cfg : Config) (ev : EventData) (w : World)
    (base branch sfx : String) (effs0 : List Effect) : RunResult :=
  let remote_exists := remote_branch_exists w.remote_refs branch
  let effs1 := effs0 ++ checkout_branch remote_exists branch w.stash_pop_conflicts_head
  let cont : RunResult :=
    if w.is_dirty || w.untracked_files > 0 then
      let r := process_event cfg w (resolve_identity cfg ev) branch base
      ⟨r.exitCode, effs1 ++ r.effects, r.pullNumber⟩
    else ⟨0, effs1, none⟩
  if remote_exists then
    if sfx = "short-commit-hash" then ⟨0, effs0, none⟩
    else if sfx = "timestamp" ∨ sfx = "random" then ⟨1, effs0, none⟩
    else cont
  else cont

/-- Source lines 287-310: the self-reference guard on the resolved base and
the branch-name computation, then the rest of the script. -/
def runFromBase (cfg : Config) (ev : EventData) (w : World)
    (base : String) (effs0 : List Effect) : RunResult :=
  if strStartsWith base (branchPref cfg) then ⟨0, effs0, none⟩
  else
    match resolve_branch (branchPref cfg) (branchSfx cfg) w with
    | none => ⟨1, effs0, none⟩
    | some branch => runFromBranch cfg ev w base branch (branchSfx cfg) effs0

/-- Source lines 221-356: the whole script body. -/
def run (cfg : Config) (ev : EventData) (w : World) : RunResult :=
  match resolve_base cfg ev w with
  | Sum.inl ⟨code, effs⟩ => ⟨code, effs, none⟩
  | Sum.inr ⟨base, effs⟩ => runFromBase cfg ev w base effs

/-- An effect belonging to the publish step: a push or any hosting-API call. -/
def isPublishEffect : Effect → Bool
  | Effect.gitPush _ => true
  | Effect.apiCreatePull _ _ => true
  | Effect.apiGetPulls _ _ => true
  | Effect.apiSetLabels _ => true
  | Effect.apiSetAssignees _ => true
  | Effect.apiSetMilestone _ => true
  | Effect.apiRequestReviewers _ => true
  | Effect.apiRequestTeamReviewers _ => true
  | Effect.apiProjectCard _ _ => true
  | _ => false

/-- An effect that checks the given branch out (either flavour). -/
def touchesBranch (b : String) : Effect → Bool
  | Effect.gitCheckout x => x == b
  | Effect.gitCheckoutNew x => x == b
  | _ => false

/-- A git push effect. -/
def isPush : Effect → Bool
  | Effect.gitPush _ => true
  | _ => false

/-- A pull-request creation attempt. -/
def isCreatePull : Effect → Bool
  | Effect.apiCreatePull _ _ => true
  | _ => false

/-- A fallback lookup of an existing pull request. -/
def isGetPulls : Effect → Bool
  | Effect.apiGetPulls _ _ => true
  | _ => false

/-- Boolean list-prefix test on effect traces. -/
def leadsWith : List Effect → List Effect → Bool
  | [], _ => true
  | _ :: _, [] => false
  | a :: as, b :: bs => if a = b then leadsWith as bs else false

/-- A string extended on the right still starts with itself. -/
theorem strStartsWith_append (p t : String) : strStartsWith (p ++ t) p = true := by
  simp only [strStartsWith, String.data_append, List.isPrefixOf_iff_prefix]
  exact List.prefix_append p.data t.data

/-- Every string starts with itself. -/
theorem strStartsWith_self (p : String) : strStartsWith p p = true := by
  simp [strStartsWith, List.isPrefixOf_iff_prefix]

/-- Whatever the strategy, the resolved head-branch name starts with the
configured branch-name base. -/
theorem resolve_branch_startsWith (pref sfx : String) (w : World) (b : String)
    (h : resolve_branch pref sfx w = some b) : strStartsWith b pref = true := by
  unfold resolve_branch at h
  split at h
  · cases h
    simpa [String.append_assoc] using strStartsWith_append pref ("-" ++ get_head_short_sha1 w)
  · split at h
    · cases h
      simpa [String.append_assoc] using strStartsWith_append pref ("-" ++ toString w.timestamp)
    · split at h
      · cases h
        simpa [String.append_assoc] using strStartsWith_append pref ("-" ++ w.random_suffix)
      · split at h
        · cases h
          exact strStartsWith_self pref
        · cases h

/-- Two strings cannot be equal when exactly one starts with `p`. -/
theorem ne_of_strStartsWith (a b p : String)
    (hb : strStartsWith b p = true) (ha : strStartsWith a p = false) : a ≠ b := by
  intro h
  rw [h, hb] at ha
  cases ha

/-- A trace is publish-free when it contains no push and no API call. -/
def publishFree (l : List Effect) : Bool := l.all fun e => !isPublishEffect e

theorem publishFree_append (l₁ l₂ : List Effect) :
    publishFree (l₁ ++ l₂) = (publishFree l₁ && publishFree l₂) := by
  simp [publishFree, List.all_append]

/-- The checkout procedure performs no push and no API call. -/
theorem checkout_branch_publishFree (re : Bool) (b : String) (s : Bool) :
    publishFree (checkout_branch re b s) = true := by
  cases re <;> cases s <;> simp [checkout_branch, publishFree, isPublishEffect]

/-- The checkout procedure checks nothing out besides its own branch. -/
theorem checkout_branch_touches (re : Bool) (b x : String) (s : Bool) (hx : x ≠ b) :
    (checkout_branch re b s).all (fun e => !touchesBranch x e) = true := by
  have hbx : ¬b = x := fun h => hx h.symm
  cases re <;> cases s <;> simp [checkout_branch, touchesBranch, hbx]

/-- Base resolution that exits early does so with an empty trace. -/
theorem resolve_base_inl (cfg : Config) (ev : EventData) (w : World) (c : Nat)
    (effs : List Effect) (h : resolve_base cfg ev w = Sum.inl ⟨c, effs⟩) : effs = [] := by
  unfold resolve_base at h
  split at h
  · cases h
  · split at h
    · split at h
      · cases h
        rfl
      · cases h
    · split at h
      · cases h
      · cases h
        rfl

/-- Base resolution that continues produced either no effects or exactly the
checkout of the resolved base. -/
theorem resolve_base_effects (cfg : Config) (ev : EventData) (w : World) (base : String)
    (effs : List Effect) (h : resolve_base cfg ev w = Sum.inr ⟨base, effs⟩) :
    effs = [] ∨ effs = checkout_branch true base w.stash_pop_conflicts_base := by
  unfold resolve_base at h
  split at h
  · simp only [Sum.inr.injEq, Prod.mk.injEq] at h
    right
    rw [← h.1, ← h.2]
  · split at h
    · split at h
      · cases h
      · simp only [Sum.inr.injEq, Prod.mk.injEq] at h
        right
        rw [← h.1, ← h.2]
    · split at h
      · simp only [Sum.inr.injEq, Prod.mk.injEq] at h
        left
        exact h.2.symm
      · cases h

/-- The base-resolution trace is publish-free. -/
theorem resolve_base_publishFree (cfg : Config) (ev : EventData) (w : World) (base : String)
    (effs : List Effect) (h : resolve_base cfg ev w = Sum.inr ⟨base, effs⟩) :
    publishFree effs = true := by
  rcases resolve_base_effects cfg ev w base effs h with rfl | rfl
  · rfl
  · exact checkout_branch_publishFree true base w.stash_pop_conflicts_base

/-- Once the base is resolved, the guard passed, and the head-branch name
computed, the whole run is `runFromBranch`. -/
theorem run_eq_runFromBranch (cfg : Config) (ev : EventData) (w : World)
    (base branch : String) (effs0 : List Effect)
    (hbase : resolve_base cfg ev w = Sum.inr ⟨base, effs0⟩)
    (hguard : strStartsWith base (branchPref cfg) = false)
    (hbr : resolve_branch (branchPref cfg) (branchSfx cfg) w = some branch) :
    run cfg ev w = runFromBranch cfg ev w base branch (branchSfx cfg) effs0 := by
  have h1 : run cfg ev w = runFromBase cfg ev w base effs0 := by
    unfold run
    rw [hbase]
  rw [h1]
  unfold runFromBase
  rw [hguard, hbr]
  simp

/-- Baseline concrete configuration for witnesses: a push to
`refs/heads/master` of `me/repo` with every optional variable unset. -/
def cfgPush : Config :=
  ⟨"token", "me/repo", "refs/heads/master", "push", "octocat", "feature",
   none, none, none, none, none, none, none, none, none, none,
   none, none, none, none, none, none, none⟩

/-- Baseline concrete event payload for witnesses. -/
def evPush : EventData := ⟨"author@example.com", "Author Name", "me/repo"⟩

/-- Baseline concrete world for witnesses: dirty tree, no remote branches,
a successful pull-request creation numbered 7. -/
def wBase : World :=
  ⟨"a1b2c3d", 1500000000, "abc1234", [], true, 0, false, false, none, 7, []⟩

/-- C2: with the short-commit-hash strategy the resolved head-branch name is
the configured branch-name base, a hyphen, and the short hash of HEAD; two
resolutions against worlds with the same HEAD short hash agree. -/
theorem c2_commit_hash_branch_deterministic (pref : String) (w w2 : World)
    (h : w2.head_short_sha = w.head_short_sha) :
    resolve_branch pref "short-commit-hash" w = some (pref ++ "-" ++ w.head_short_sha) ∧
    resolve_branch pref "short-commit-hash" w2 = resolve_branch pref "short-commit-hash" w := by
  constructor
  · simp [resolve_branch, get_head_short_sha1]
  · simp [resolve_branch, get_head_short_sha1, h]

/-- C2 witness: prefix `create-pull-request/patch` and short hash `a1b2c3d`
yield `create-pull-request/patch-a1b2c3d`, in two different worlds. -/
theorem c2_commit_hash_branch_deterministic_witness :
    { wBase with timestamp := 1600000000 }.head_short_sha = wBase.head_short_sha ∧
    resolve_branch "create-pull-request/patch" "short-commit-hash" wBase
      = some "create-pull-request/patch-a1b2c3d" ∧
    resolve_branch "create-pull-request/patch" "short-commit-hash"
        { wBase with timestamp := 1600000000 }
      = resolve_branch "create-pull-request/patch" "short-commit-hash" wBase := by
  have h := c2_commit_hash_branch_deterministic "create-pull-request/patch"
    wBase { wBase with timestamp := 1600000000 } rfl
  exact ⟨rfl, by rw [h.1]; rfl, h.2⟩

/-- C5: a pull-request-triggered run without a base override whose head
repository differs from the target repository exits 0 with an empty effect
trace: no git remote operation and no hosting-API request. -/
theorem c5_cross_fork_clean_exit (cfg : Config) (ev : EventData) (w : World)
    (hb : cfg.pull_request_base = none)
    (hr : strStartsWith cfg.github_ref "refs/pull/" = true)
    (hf : ev.pr_head_repo_full_name ≠ cfg.github_repository) :
    run cfg ev w = ⟨0, [], none⟩ := by
  have h1 : resolve_base cfg ev w = Sum.inl ⟨0, []⟩ := by
    unfold resolve_base
    rw [hb]
    simp [hr, hf]
  unfold run
  rw [h1]

/-- C5 witness: a fork-raised pull-request event on `refs/pull/42/merge`. -/
theorem c5_cross_fork_clean_exit_witness :
    { cfgPush with github_ref := "refs/pull/42/merge" }.pull_request_base = none ∧
    strStartsWith "refs/pull/42/merge" "refs/pull/" = true ∧
    ("other/fork" : String) ≠ "me/repo" ∧
    run { cfgPush with github_ref := "refs/pull/42/merge" }
        { evPush with pr_head_repo_full_name := "other/fork" } wBase = ⟨0, [], none⟩ := by
  refine ⟨rfl, by decide, by decide, ?_⟩
  exact c5_cross_fork_clean_exit { cfgPush with github_ref := "refs/pull/42/merge" }
    { evPush with pr_head_repo_full_name := "other/fork" } wBase rfl (by decide) (by decide)

/-- C10: the effective author identity is the event-derived default with the
COMMIT_AUTHOR_NAME/EMAIL overrides applied, and an unset COMMITTER_NAME
(resp. COMMITTER_EMAIL) makes the committer name (resp. email) equal that
effective author name (resp. email), not the event-derived one. -/
theorem c10_committer_defaults_to_overridden_author (cfg : Config) (ev : EventData) :
    (resolve_identity cfg ev).author_name
      = Option.getD cfg.commit_author_name (get_author_default cfg.event_name cfg.github_actor ev).2 ∧
    (resolve_identity cfg ev).author_email
      = Option.getD cfg.commit_author_email (get_author_default cfg.event_name cfg.github_actor ev).1 ∧
    (cfg.committer_name = none →
      (resolve_identity cfg ev).committer_name = (resolve_identity cfg ev).author_name) ∧
    (cfg.committer_email = none →
      (resolve_identity cfg ev).committer_email = (resolve_identity cfg ev).author_email) := by
  refine ⟨rfl, rfl, ?_, ?_⟩ <;> intro h <;> simp [resolve_identity, h]

/-- C10 witness: with COMMIT_AUTHOR_NAME/EMAIL set and COMMITTER_NAME/EMAIL
unset, the committer picks up the override, not the event identity. -/
theorem c10_committer_defaults_to_overridden_author_witness :
    { cfgPush with commit_author_name := some "Override",
                   commit_author_email := some "override@example.com" }.committer_name = none ∧
    (resolve_identity
        { cfgPush with commit_author_name := some "Override",
                       commit_author_email := some "override@example.com" } evPush).committer_name
      = (resolve_identity
        { cfgPush with commit_author_name := some "Override",
                       commit_author_email := some "override@example.com" } evPush).author_name ∧
    (resolve_identity
        { cfgPush with commit_author_name := some "Override",
                       commit_author_email := some "override@example.com" } evPush).committer_name
      = "Override" := by
  have h := c10_committer_defaults_to_overridden_author
    { cfgPush with commit_author_name := some "Override",
                   commit_author_email := some "override@example.com" } evPush
  exact ⟨rfl, h.2.2.1 rfl, by decide⟩

/-- C6 counterexample: with PULL_REQUEST_BASE set to a branch that starts
with the configured branch-name base, the run does exit with code 0 before
computing a head-branch name, but a working-tree mutation has already
happened: base resolution checked the override branch out (with a stash)
before the guard fired, so "no checkout" is false for this invocation. -/
theorem c6_guard_counterexample :
    strStartsWith "create-pull-request/patch-zzz"
      (branchPref { cfgPush with pull_request_base := some "create-pull-request/patch-zzz" }) = true ∧
    run { cfgPush with pull_request_base := some "create-pull-request/patch-zzz" } evPush wBase
      = ⟨0, [Effect.gitStash, Effect.gitCheckout "create-pull-request/patch-zzz",
             Effect.gitStashPop], none⟩ := by
  decide

/-- C6 (amended): when the resolved base starts with the configured
branch-name base, the run exits with code 0 carrying exactly the
base-resolution effects — no head-branch name is computed, nothing runs
after the guard, and no push or hosting-API call ever happens (though the
base-resolution checkout itself may already have mutated the working tree). -/
theorem c6_base_guard_skips (cfg : Config) (ev : EventData) (w : World)
    (base : String) (effs0 : List Effect)
    (hbase : resolve_base cfg ev w = Sum.inr ⟨base, effs0⟩)
    (hguard : strStartsWith base (branchPref cfg) = true) :
    run cfg ev w = ⟨0, effs0, none⟩ ∧ publishFree effs0 = true := by
  constructor
  · have h1 : run cfg ev w = runFromBase cfg ev w base effs0 := by
      unfold run
      rw [hbase]
    rw [h1]
    unfold runFromBase
    rw [hguard]
    simp
  · exact resolve_base_publishFree cfg ev w base effs0 hbase

/-- C6 witness: a base branch `create-pull-request/patch-zzz` resolved from
the ref of a push event trips the guard with no effects at all. -/
theorem c6_base_guard_skips_witness :
    resolve_base { cfgPush with github_ref := "refs/heads/create-pull-request/patch-zzz" }
        evPush wBase = Sum.inr ⟨"create-pull-request/patch-zzz", []⟩ ∧
    strStartsWith "create-pull-request/patch-zzz"
      (branchPref { cfgPush with github_ref := "refs/heads/create-pull-request/patch-zzz" }) = true ∧
    run { cfgPush with github_ref := "refs/heads/create-pull-request/patch-zzz" } evPush wBase
      = ⟨0, [], none⟩ ∧
    publishFree [] = true := by
  refine ⟨by decide, by decide, ?_⟩
  exact c6_base_guard_skips
    { cfgPush with github_ref := "refs/heads/create-pull-request/patch-zzz" }
    evPush wBase "create-pull-request/patch-zzz" [] (by decide) (by decide)

/-- Base resolution ignores the head-repository field of the payload once a
base override is configured. -/
theorem runFromBase_ev_irrel (cfg : Config) (w : World) (base : String)
    (effs0 : List Effect) (ev ev2 : EventData)
    (hid : resolve_identity cfg ev2 = resolve_identity cfg ev) :
    runFromBase cfg ev2 w base effs0 = runFromBase cfg ev w base effs0 := by
  unfold runFromBase runFromBranch
  rw [hid]

/-- The identity derivation never reads the head-repository field. -/
theorem resolve_identity_head_repo_irrel (cfg : Config) (ev : EventData) (name : String) :
    resolve_identity cfg { ev with pr_head_repo_full_name := name } = resolve_identity cfg ev := by
  unfold resolve_identity get_author_default
  split <;> rfl

/-- Every outcome of `runFromBranch` extends the effects accumulated so far. -/
theorem runFromBranch_effects_extend (cfg : Config) (ev : EventData) (w : World)
    (base branch sfx : String) (effs0 : List Effect) :
    ∃ rest, (runFromBranch cfg ev w base branch sfx effs0).effects = effs0 ++ rest := by
  simp only [runFromBranch]
  split
  · split
    · exact ⟨[], by simp⟩
    · split
      · exact ⟨[], by simp⟩
      · split
        · exact ⟨_, List.append_assoc _ _ _⟩
        · exact ⟨_, rfl⟩
  · split
    · exact ⟨_, List.append_assoc _ _ _⟩
    · exact ⟨_, rfl⟩

/-- Every outcome of `runFromBase` extends the effects accumulated so far. -/
theorem runFromBase_effects_extend (cfg : Config) (ev : EventData) (w : World)
    (base : String) (effs0 : List Effect) :
    ∃ rest, (runFromBase cfg ev w base effs0).effects = effs0 ++ rest := by
  unfold runFromBase
  split
  · exact ⟨[], by simp⟩
  · split
    · exact ⟨[], by simp⟩
    · exact runFromBranch_effects_extend cfg ev w base _ _ effs0

/-- A list is a `leadsWith`-prefix of any right extension of itself. -/
theorem leadsWith_append (l rest : List Effect) : leadsWith l (l ++ rest) = true := by
  induction l with
  | nil => rfl
  | cons a as ih => simp [leadsWith, ih]

/-- C9: a configured PULL_REQUEST_BASE wins over trigger-based resolution:
the run starts by checking the override branch out, and its entire behaviour
is independent of the payload's head-repository field — the cross-fork check
is never performed, even for a pull-request ref raised from a fork. -/
theorem c9_base_override_precedence (cfg : Config) (ev : EventData) (w : World)
    (b name : String) (hb : cfg.pull_request_base = some b) :
    leadsWith (checkout_branch true b w.stash_pop_conflicts_base) (run cfg ev w).effects = true ∧
    run cfg ev w = run cfg { ev with pr_head_repo_full_name := name } w := by
  have hbase : ∀ ev3 : EventData, resolve_base cfg ev3 w
      = Sum.inr ⟨b, checkout_branch true b w.stash_pop_conflicts_base⟩ := by
    intro ev3
    unfold resolve_base
    rw [hb]
  have hrun : ∀ ev3 : EventData, run cfg ev3 w
      = runFromBase cfg ev3 w b (checkout_branch true b w.stash_pop_conflicts_base) := by
    intro ev3
    unfold run
    rw [hbase ev3]
  constructor
  · rw [hrun ev]
    obtain ⟨rest, hrest⟩ := runFromBase_effects_extend cfg ev w b
      (checkout_branch true b w.stash_pop_conflicts_base)
    rw [hrest]
    exact leadsWith_append _ rest
  · rw [hrun ev, hrun { ev with pr_head_repo_full_name := name }]
    exact (runFromBase_ev_irrel cfg w b _ ev { ev with pr_head_repo_full_name := name }
      (resolve_identity_head_repo_irrel cfg ev name)).symm

/-- C9 witness: base override `dev` on a fork-raised pull-request ref. -/
theorem c9_base_override_precedence_witness :
    { cfgPush with github_ref := "refs/pull/42/merge",
                   pull_request_base := some "dev" }.pull_request_base = some "dev" ∧
    leadsWith (checkout_branch true "dev" wBase.stash_pop_conflicts_base)
      (run { cfgPush with github_ref := "refs/pull/42/merge", pull_request_base := some "dev" }
        { evPush with pr_head_repo_full_name := "other/fork" } wBase).effects = true ∧
    run { cfgPush with github_ref := "refs/pull/42/merge", pull_request_base := some "dev" }
        { evPush with pr_head_repo_full_name := "other/fork" } wBase
      = run { cfgPush with github_ref := "refs/pull/42/merge", pull_request_base := some "dev" }
        { { evPush with pr_head_repo_full_name := "other/fork" }
            with pr_head_repo_full_name := "me/repo" } wBase := by
  refine ⟨rfl, ?_⟩
  exact c9_base_override_precedence
    { cfgPush with github_ref := "refs/pull/42/merge", pull_request_base := some "dev" }
    { evPush with pr_head_repo_full_name := "other/fork" } wBase "dev" "me/repo" rfl

/-- C1: when the resolved head branch already exists on the remote, the
short-commit-hash strategy exits 0 with nothing beyond the base-resolution
effects (which are publish-free and never touch the head branch) — an
idempotent no-op; the timestamp and random strategies exit 1 (retryable
collision); the `none` strategy proceeds to check the existing branch out. -/
theorem c1_existing_head_branch_policy (cfg : Config) (ev : EventData) (w : World)
    (base branch : String) (effs0 : List Effect)
    (hbase : resolve_base cfg ev w = Sum.inr ⟨base, effs0⟩)
    (hguard : strStartsWith base (branchPref cfg) = false)
    (hbr : resolve_branch (branchPref cfg) (branchSfx cfg) w = some branch)
    (hex : remote_branch_exists w.remote_refs branch = true) :
    (branchSfx cfg = "short-commit-hash" →
       run cfg ev w = ⟨0, effs0, none⟩ ∧
       publishFree effs0 = true ∧
       effs0.all (fun e => !touchesBranch branch e) = true) ∧
    (branchSfx cfg = "timestamp" ∨ branchSfx cfg = "random" →
       run cfg ev w = ⟨1, effs0, none⟩) ∧
    (branchSfx cfg = "none" →
       Effect.gitCheckout branch ∈ (run cfg ev w).effects) := by
  have hrun := run_eq_runFromBranch cfg ev w base branch effs0 hbase hguard hbr
  have htb : effs0.all (fun e => !touchesBranch branch e) = true := by
    rcases resolve_base_effects cfg ev w base effs0 hbase with rfl | rfl
    · rfl
    · exact checkout_branch_touches true base branch w.stash_pop_conflicts_base
        (Ne.symm (ne_of_strStartsWith base branch (branchPref cfg)
          (resolve_branch_startsWith _ _ _ _ hbr) hguard))
  refine ⟨?_, ?_, ?_⟩
  · intro hs
    refine ⟨?_, resolve_base_publishFree cfg ev w base effs0 hbase, htb⟩
    rw [hrun, hs]
    simp only [runFromBranch]
    rw [hex]
    simp
  · intro hs
    rw [hrun]
    rcases hs with hs | hs <;> rw [hs] <;> simp only [runFromBranch] <;> rw [hex] <;> simp
  · intro hs
    rw [hrun, hs]
    simp only [runFromBranch]
    rw [hex]
    simp only [if_true]
    rw [if_neg (by decide : ¬("none" : String) = "short-commit-hash"),
        if_neg (by decide : ¬(("none" : String) = "timestamp" ∨ ("none" : String) = "random"))]
    split <;> simp [checkout_branch]

/-- World in which `origin/create-pull-request/patch-a1b2c3d` already exists. -/
def wC1 : World := { wBase with remote_refs := ["origin/create-pull-request/patch-a1b2c3d"] }

/-- C1 witness: under the default short-commit-hash strategy, a pre-existing
remote branch for the HEAD commit makes the run a clean exit-0 no-op. -/
theorem c1_existing_head_branch_policy_witness :
    remote_branch_exists wC1.remote_refs "create-pull-request/patch-a1b2c3d" = true ∧
    branchSfx cfgPush = "short-commit-hash" ∧
    run cfgPush evPush wC1 = ⟨0, [], none⟩ := by
  refine ⟨by decide, rfl, ?_⟩
  exact ((c1_existing_head_branch_policy cfgPush evPush wC1 "master"
    "create-pull-request/patch-a1b2c3d" [] (by decide) (by decide) (by decide) (by decide)).1
    rfl).1

/-- C3: an invocation that reaches the change-detection point (base resolved,
guard passed, strategy valid, no exit at the existence check) with a clean
working tree — not dirty, no untracked files — ends with exit code 0 and a
trace holding only base-resolution and checkout effects: no push, no
pull-request creation or update, no hosting-API call at all. -/
theorem c3_clean_tree_skips_publish (cfg : Config) (ev : EventData) (w : World)
    (base branch : String) (effs0 : List Effect)
    (hbase : resolve_base cfg ev w = Sum.inr ⟨base, effs0⟩)
    (hguard : strStartsWith base (branchPref cfg) = false)
    (hbr : resolve_branch (branchPref cfg) (branchSfx cfg) w = some branch)
    (hno1 : ¬(remote_branch_exists w.remote_refs branch = true ∧
              branchSfx cfg = "short-commit-hash"))
    (hno2 : ¬(remote_branch_exists w.remote_refs branch = true ∧
              (branchSfx cfg = "timestamp" ∨ branchSfx cfg = "random")))
    (hdirty : w.is_dirty = false) (huntracked : w.untracked_files = 0) :
    run cfg ev w = ⟨0, effs0 ++ checkout_branch (remote_branch_exists w.remote_refs branch)
        branch w.stash_pop_conflicts_head, none⟩ ∧
    publishFree (run cfg ev w).effects = true := by
  have hrun := run_eq_runFromBranch cfg ev w base branch effs0 hbase hguard hbr
  have hmain : run cfg ev w = ⟨0, effs0 ++ checkout_branch
      (remote_branch_exists w.remote_refs branch) branch w.stash_pop_conflicts_head, none⟩ := by
    rw [hrun]
    simp only [runFromBranch]
    cases hex : remote_branch_exists w.remote_refs branch with
    | false => simp [hdirty, huntracked]
    | true =>
        rw [if_pos rfl, if_neg (fun h => hno1 ⟨hex, h⟩), if_neg (fun h => hno2 ⟨hex, h⟩)]
        simp [hdirty, huntracked]
  refine ⟨hmain, ?_⟩
  rw [hmain]
  simp only [publishFree_append]
  rw [resolve_base_publishFree cfg ev w base effs0 hbase,
      checkout_branch_publishFree]
  rfl

/-- World with a clean working tree and no remote branches. -/
def wC3 : World := { wBase with is_dirty := false }

/-- C3 witness: a clean tree on a plain push run creates the branch locally
and then stops with exit 0 and no publish effect. -/
theorem c3_clean_tree_skips_publish_witness :
    wC3.is_dirty = false ∧ wC3.untracked_files = 0 ∧
    run cfgPush evPush wC3 = ⟨0, [] ++ checkout_branch
      (remote_branch_exists wC3.remote_refs "create-pull-request/patch-a1b2c3d")
      "create-pull-request/patch-a1b2c3d" wC3.stash_pop_conflicts_head, none⟩ ∧
    publishFree (run cfgPush evPush wC3).effects = true := by
  have h := c3_clean_tree_skips_publish cfgPush evPush wC3 "master"
    "create-pull-request/patch-a1b2c3d" [] (by decide) (by decide) (by decide)
    (by decide) (by decide) rfl rfl
  exact ⟨rfl, rfl, h.1, h.2⟩

/-- C4: in the publish step, a pull-request creation failing with status 422
falls back to looking the existing open pull request for the head/base pair
up, reports its number, and the run continues as success (exit 0); any other
creation failure exits with code 1. -/
theorem c4_duplicate_conflict_fallback (cfg : Config) (w : World) (id : Identity)
    (branch base : String) (s n : Nat) (rest : List Nat)
    (hs : w.create_pull_status = some s) :
    (s = 422 → w.existing_pulls = n :: rest →
       (process_event cfg w id branch base).exitCode = 0 ∧
       (process_event cfg w id branch base).pullNumber = some n ∧
       Effect.apiGetPulls base (headWithOwner cfg.github_repository branch)
         ∈ (process_event cfg w id branch base).effects) ∧
    (s ≠ 422 → (process_event cfg w id branch base).exitCode = 1) := by
  constructor
  · intro h422 hpulls
    subst h422
    unfold process_event
    rw [hs, hpulls]
    simp
  · intro hne
    unfold process_event
    rw [hs]
    simp [hne]

/-- World in which pull-request creation answers 422 and the lookup finds
open pull request number 9. -/
def wC4 : World := { wBase with create_pull_status := some 422, existing_pulls := [9] }

/-- C4 witness: the 422 fallback reuses pull request 9 and succeeds. -/
theorem c4_duplicate_conflict_fallback_witness :
    wC4.create_pull_status = some 422 ∧ wC4.existing_pulls = 9 :: [] ∧
    (process_event cfgPush wC4 (resolve_identity cfgPush evPush)
      "create-pull-request/patch-a1b2c3d" "master").exitCode = 0 ∧
    (process_event cfgPush wC4 (resolve_identity cfgPush evPush)
      "create-pull-request/patch-a1b2c3d" "master").pullNumber = some 9 ∧
    Effect.apiGetPulls "master" (headWithOwner cfgPush.github_repository
        "create-pull-request/patch-a1b2c3d")
      ∈ (process_event cfgPush wC4 (resolve_identity cfgPush evPush)
          "create-pull-request/patch-a1b2c3d" "master").effects := by
  have h := (c4_duplicate_conflict_fallback cfgPush wC4 (resolve_identity cfgPush evPush)
    "create-pull-request/patch-a1b2c3d" "master" 422 9 [] rfl).1 rfl rfl
  exact ⟨rfl, rfl, h.1, h.2.1, h.2.2⟩

/-- A push effect is a publish effect. -/
theorem isPush_publish (e : Effect) (h : isPush e = true) : isPublishEffect e = true := by
  cases e <;> simp_all [isPush, isPublishEffect]

/-- A creation attempt is a publish effect. -/
theorem isCreatePull_publish (e : Effect) (h : isCreatePull e = true) :
    isPublishEffect e = true := by
  cases e <;> simp_all [isCreatePull, isPublishEffect]

/-- A fallback lookup is a publish effect. -/
theorem isGetPulls_publish (e : Effect) (h : isGetPulls e = true) :
    isPublishEffect e = true := by
  cases e <;> simp_all [isGetPulls, isPublishEffect]

/-- A publish-free trace contains nothing counted by a publish predicate. -/
theorem countP_zero_of_publishFree (l : List Effect) (p : Effect → Bool)
    (hp : ∀ e, p e = true → isPublishEffect e = true)
    (h : publishFree l = true) : l.countP p = 0 := by
  rw [List.countP_eq_zero]
  intro a ha hpa
  have h1 := hp a hpa
  have h2 : l.all (fun e => !isPublishEffect e) = true := h
  have h3 := List.all_eq_true.mp h2 a ha
  rw [h1] at h3
  simp at h3

/-- Membership in an optional metadata singleton reveals its shape. -/
theorem mem_optEffect (o : Option String) (f : String → Effect) (e : Effect)
    (h : e ∈ optEffect o f) : ∃ s, e = f s := by
  cases o with
  | none => simp [optEffect] at h
  | some s =>
      simp [optEffect] at h
      exact ⟨s, h⟩

/-- Every metadata effect is one of the six metadata API calls. -/
theorem mem_metadata_effects (cfg : Config) (e : Effect) (h : e ∈ metadata_effects cfg) :
    (∃ l, e = Effect.apiSetLabels l) ∨ (∃ l, e = Effect.apiSetAssignees l) ∨
    (∃ m, e = Effect.apiSetMilestone m) ∨ (∃ l, e = Effect.apiRequestReviewers l) ∨
    (∃ l, e = Effect.apiRequestTeamReviewers l) ∨ ∃ a b, e = Effect.apiProjectCard a b := by
  unfold metadata_effects at h
  simp only [List.mem_append] at h
  rcases h with ((((h | h) | h) | h) | h) | h
  · obtain ⟨s, rfl⟩ := mem_optEffect _ _ _ h
    exact Or.inl ⟨_, rfl⟩
  · obtain ⟨s, rfl⟩ := mem_optEffect _ _ _ h
    exact Or.inr (Or.inl ⟨_, rfl⟩)
  · obtain ⟨s, rfl⟩ := mem_optEffect _ _ _ h
    exact Or.inr (Or.inr (Or.inl ⟨_, rfl⟩))
  · obtain ⟨s, rfl⟩ := mem_optEffect _ _ _ h
    exact Or.inr (Or.inr (Or.inr (Or.inl ⟨_, rfl⟩)))
  · obtain ⟨s, rfl⟩ := mem_optEffect _ _ _ h
    exact Or.inr (Or.inr (Or.inr (Or.inr (Or.inl ⟨_, rfl⟩))))
  · rcases hpn : cfg.project_name with _ | pn <;> rw [hpn] at h <;>
      rcases hcn : cfg.project_column_name with _ | cn <;> rw [hcn] at h <;> simp at h
    subst h
    exact Or.inr (Or.inr (Or.inr (Or.inr (Or.inr ⟨pn, cn, rfl⟩))))

/-- The metadata trace holds no push. -/
theorem metadata_countP_isPush (cfg : Config) : (metadata_effects cfg).countP isPush = 0 := by
  rw [List.countP_eq_zero]
  intro e he hp
  rcases mem_metadata_effects cfg e he with
    ⟨l, rfl⟩ | ⟨l, rfl⟩ | ⟨m, rfl⟩ | ⟨l, rfl⟩ | ⟨l, rfl⟩ | ⟨a, b, rfl⟩ <;> simp [isPush] at hp

/-- The metadata trace holds no creation attempt. -/
theorem metadata_countP_isCreatePull (cfg : Config) :
    (metadata_effects cfg).countP isCreatePull = 0 := by
  rw [List.countP_eq_zero]
  intro e he hp
  rcases mem_metadata_effects cfg e he with
    ⟨l, rfl⟩ | ⟨l, rfl⟩ | ⟨m, rfl⟩ | ⟨l, rfl⟩ | ⟨l, rfl⟩ | ⟨a, b, rfl⟩ <;>
    simp [isCreatePull] at hp

/-- The metadata trace holds no fallback lookup. -/
theorem metadata_countP_isGetPulls (cfg : Config) :
    (metadata_effects cfg).countP isGetPulls = 0 := by
  rw [List.countP_eq_zero]
  intro e he hp
  rcases mem_metadata_effects cfg e he with
    ⟨l, rfl⟩ | ⟨l, rfl⟩ | ⟨m, rfl⟩ | ⟨l, rfl⟩ | ⟨l, rfl⟩ | ⟨a, b, rfl⟩ <;>
    simp [isGetPulls] at hp

/-- The publish step pushes exactly once, attempts creation exactly once,
and looks an existing pull request up at most once. -/
theorem process_event_counts (cfg : Config) (w : World) (id : Identity) (branch base : String) :
    ((process_event cfg w id branch base).effects.countP isPush = 1) ∧
    ((process_event cfg w id branch base).effects.countP isCreatePull = 1) ∧
    ((process_event cfg w id branch base).effects.countP isGetPulls ≤ 1) := by
  unfold process_event push_changes
  cases hcs : w.create_pull_status with
  | none =>
      simp [List.countP_append, List.countP_cons, isPush, isCreatePull, isGetPulls,
        metadata_countP_isPush, metadata_countP_isCreatePull, metadata_countP_isGetPulls]
  | some s =>
      by_cases h422 : s = 422
      · subst h422
        simp only [if_pos rfl]
        cases hep : w.existing_pulls with
        | nil =>
            simp [List.countP_append, List.countP_cons, isPush, isCreatePull, isGetPulls]
        | cons n rest =>
            simp [List.countP_append, List.countP_cons, isPush, isCreatePull, isGetPulls,
              metadata_countP_isPush, metadata_countP_isCreatePull, metadata_countP_isGetPulls]
      · simp [h422, List.countP_append, List.countP_cons, isPush, isCreatePull, isGetPulls]

/-- The whole run triggers any given publish predicate at most once, given
that the publish step itself does. -/
theorem run_countP_le_one (cfg : Config) (ev : EventData) (w : World) (p : Effect → Bool)
    (hpub : ∀ e, p e = true → isPublishEffect e = true)
    (hpe : ∀ id b m, ((process_event cfg w id b m).effects.countP p) ≤ 1) :
    (run cfg ev w).effects.countP p ≤ 1 := by
  have hco : ∀ re b s, (checkout_branch re b s).countP p = 0 := fun re b s =>
    countP_zero_of_publishFree _ p hpub (checkout_branch_publishFree re b s)
  rcases hb : resolve_base cfg ev w with ⟨c, effs⟩ | ⟨base, effs⟩
  · have h1 : run cfg ev w = ⟨c, effs, none⟩ := by
      unfold run
      rw [hb]
    have h0 : effs = [] := resolve_base_inl cfg ev w c effs hb
    rw [h1, h0]
    simp
  · have h1 : run cfg ev w = runFromBase cfg ev w base effs := by
      unfold run
      rw [hb]
    have h0 : effs.countP p = 0 :=
      countP_zero_of_publishFree _ p hpub (resolve_base_publishFree cfg ev w base effs hb)
    rw [h1]
    unfold runFromBase
    split
    · simp [h0]
    · split
      · simp [h0]
      · simp only [runFromBranch]
        split
        · split
          · simp [h0]
          · split
            · simp [h0]
            · split
              · simp only [RunResult.effects, List.countP_append, h0, hco]
                simpa using hpe _ _ _
              · simp [List.countP_append, h0, hco]
        · split
          · simp only [RunResult.effects, List.countP_append, h0, hco]
            simpa using hpe _ _ _
          · simp [List.countP_append, h0, hco]

/-- C8: every invocation executes at most one git push, at most one
pull-request creation attempt, and at most one fallback lookup of an
existing pull request. -/
theorem c8_at_most_one_publish (cfg : Config) (ev : EventData) (w : World) :
    (run cfg ev w).effects.countP isPush ≤ 1 ∧
    (run cfg ev w).effects.countP isCreatePull ≤ 1 ∧
    (run cfg ev w).effects.countP isGetPulls ≤ 1 := by
  refine ⟨?_, ?_, ?_⟩
  · exact run_countP_le_one cfg ev w isPush isPush_publish
      (fun id b m => Nat.le_of_eq (process_event_counts cfg w id b m).1)
  · exact run_countP_le_one cfg ev w isCreatePull isCreatePull_publish
      (fun id b m => Nat.le_of_eq (process_event_counts cfg w id b m).2.1)
  · exact run_countP_le_one cfg ev w isGetPulls isGetPulls_publish
      (fun id b m => (process_event_counts cfg w id b m).2.2)
